import Mathlib

/-
  Verification of the session-service engine (YuanData/session-service).

  Shallow embedding of the session lifecycle engine:
  - the fast store (Redis) is modelled as association lists keyed by the exact
    key strings built by infra/redis.go (sess:{sid} hashes, user_sess:{uid}
    sorted sets, banned_user:{uid} presence flags);
  - the durable store (SQLite) is modelled as a users list and a sessions
    ledger keyed by session id, with db/queries/sessions.sql's RevokeSession
    semantics (update only rows whose revoked_at is NULL);
  - asynq job enqueues are modelled as appends to in-state job queues;
  - machine int64 values (user ids, unix timestamps) are modelled as Int
    (no arithmetic in the engine can overflow 64 bits for realistic inputs,
    and the engine only compares and copies these values);
  - fallible store accesses take explicit success flags where a claim
    depends on the failure path; best-effort steps whose errors the source
    discards without branching are modelled on their success path.
-/

namespace SessionService

/-- A Redis hash (field map), as returned by HGetAll: field name to value. -/
abbrev RHash := List (String × String)

/-- A Redis sorted set: member to score.  Scores are created-at unix seconds
(the source stores float64(now.Unix()); the values are integral and exactly
representable, so Int is faithful).  List order is never observed: all
queries (ZCard, ZRange 0 0, membership) are order-insensitive. -/
abbrev ZSet := List (String × Int)

/-- Key of the per-session live record, from infra/redis.go SessKey. -/
def SessKey (sessionID : String) : String := "sess:" ++ sessionID

/-- Key of the per-user session index, from infra/redis.go UserSessKey. -/
def UserSessKey (userID : Int) : String := "user_sess:" ++ toString userID

/-- Key of the presence-only ban marker, from infra/redis.go BannedUserKey. -/
def BannedUserKey (userID : Int) : String := "banned_user:" ++ toString userID

/-- stringFromInt64 from service.go: fmt.Sprintf with a decimal verb. -/
def stringFromInt64 (v : Int) : String := toString v

/-- Lookup in a string-keyed association list (a Redis keyspace or hash). -/
def alookup {α : Type} (m : List (String × α)) (k : String) : Option α :=
  (m.find? (fun p => p.1 == k)).map (fun p => p.2)

/-- Set a key in a string-keyed association list (the key's old binding, if
any, is replaced). -/
def aset {α : Type} (m : List (String × α)) (k : String) (v : α) :
    List (String × α) :=
  m.filter (fun p => p.1 != k) ++ [(k, v)]

/-- Delete a key from a string-keyed association list (Redis DEL). -/
def adel {α : Type} (m : List (String × α)) (k : String) :
    List (String × α) :=
  m.filter (fun p => p.1 != k)

/-- HGetAll: the hash stored at a key, or the empty field map when the key is
absent (Redis returns an empty map, not an error, on a missing key). -/
def hgetAll (m : List (String × RHash)) (k : String) : RHash :=
  (alookup m k).getD []

/-- The sorted set stored at a key; a missing key is the empty set. -/
def getZSet (m : List (String × ZSet)) (k : String) : ZSet :=
  (alookup m k).getD []

/-- ZREM: remove one member from a sorted set. -/
def zrem (member : String) (z : ZSet) : ZSet :=
  z.filter (fun p => p.1 != member)

/-- ZADD: add a member with a score (replacing any previous score). -/
def zadd (member : String) (score : Int) (z : ZSet) : ZSet :=
  zrem member z ++ [(member, score)]

/-- ZCARD: number of members. -/
def zcard (z : ZSet) : Nat := z.length

/-- The better of two entries in Redis sorted-set order: lower score first,
ties broken by the member string (Redis's native lexicographic order). -/
def zminPick (b p : String × Int) : String × Int :=
  if p.2 < b.2 ∨ (p.2 = b.2 ∧ p.1 < b.1) then p else b

/-- ZRANGE key 0 0: the member with the lowest (score, member) in sorted-set
order, or none when the set is empty. -/
def zhead : ZSet → Option String
  | [] => none
  | x :: xs => some ((xs.foldl zminPick x).1)

/-- A row of the users table (db/migrations 001 plus 004_add_user_ban). -/
structure User where
  id : Int
  username : String
  passwordHash : String
  isBanned : Bool
deriving DecidableEq

/-- GetUserByUsername from db/queries/users.sql: first row with the username. -/
def GetUserByUsername (users : List User) (username : String) : Option User :=
  users.find? (fun u => u.username == username)

/-- A row of the sessions ledger table (db/migrations/002_add_sessions). -/
structure LedgerRow where
  userId : Int
  createdAt : Int
  expiresAt : Int
  revokedAt : Option Int
  revokedBy : Option String
deriving DecidableEq

/-- RevokeSession from db/queries/sessions.sql: set revoked_at to the current
timestamp and revoked_by to the actor on rows whose id matches and whose
revoked_at IS NULL; other rows are untouched, and an already-revoked or
missing row makes the update a no-op. -/
def RevokeSession (ledger : List (String × LedgerRow)) (id : String)
    (revokedBy : String) (now : Int) : List (String × LedgerRow) :=
  ledger.map (fun p =>
    if p.1 == id && p.2.revokedAt.isNone then
      (p.1, { p.2 with revokedAt := some now, revokedBy := some revokedBy })
    else p)

/-- CreateSession from db/queries/sessions.sql: insert a fresh, unrevoked row
(the session id is a fresh uuid, so the primary key cannot collide). -/
def CreateSession (ledger : List (String × LedgerRow)) (id : String)
    (userId createdAt expiresAt : Int) : List (String × LedgerRow) :=
  ledger ++ [(id, { userId := userId, createdAt := createdAt,
                    expiresAt := expiresAt, revokedAt := none,
                    revokedBy := none })]

/-- Payload of a session:expire task, from infra SessionExpirePayload. -/
structure SessionExpirePayload where
  sessionId : String
  userId : Int
deriving DecidableEq

/-- Payload of a login:audit task, from infra LoginAuditPayload. -/
structure LoginAuditPayload where
  userId : Option Int
  username : String
  success : Bool
  reason : String
  ip : String
  userAgent : String
deriving DecidableEq

/-- LoginMeta from service.go. -/
structure LoginMeta where
  ip : String
  userAgent : String
deriving DecidableEq

/-- The engine configuration fields Login reads (internal/config). -/
structure Config where
  sessionTTL : Int
  maxSessionsPerUser : Int
deriving DecidableEq

/-- The combined state of both stores and the job queues.  The three Redis
key families live in separate maps; their prefixes (sess:, user_sess:,
banned_user:) keep them collision-free in the real single keyspace. -/
structure St where
  users : List User
  sessions : List (String × RHash)
  indexes : List (String × ZSet)
  banned : List String
  ledger : List (String × LedgerRow)
  expireJobs : List SessionExpirePayload
  auditJobs : List LoginAuditPayload
deriving DecidableEq

/-- Error classification of the engine (spec section 7 taxonomy; the source
returns ErrInvalidCredentials / ErrUserBanned and raw store errors, which the
HTTP layer surfaces as an internal error). -/
inductive SvcErr where
  | invalidCredentials
  | userBanned
  | internalError
deriving DecidableEq

/-- Result of a Login call. -/
inductive LoginResult where
  | ok (user : User) (sessionID : String) (expiresAt : Int)
  | err (e : SvcErr)
deriving DecidableEq

/-- EnqueueLoginAudit from infra/asynq_client.go: append one audit job. -/
def EnqueueLoginAudit (st : St) (p : LoginAuditPayload) : St :=
  { st with auditJobs := st.auditJobs ++ [p] }

/-- EnqueueSessionExpire from infra/asynq_client.go: append one expiry job. -/
def EnqueueSessionExpire (st : St) (sessionID : String) (userId : Int) : St :=
  { st with expireJobs := st.expireJobs ++ [{ sessionId := sessionID,
                                              userId := userId }] }

/-- Best-effort eviction block of Login (service.go lines 67-95): when a
maximum is configured and the per-user index holds at least that many
members, ZRANGE 0 0 picks the oldest session; its live record is deleted,
its index entry removed (one TxPipeline) and its ledger row revoked with
actor system:limit.  The source discards the pipeline and revoke errors
(best-effort cleanup), so this step is modelled on its success path. -/
def evictOldest (st : St) (cfg : Config) (uid : Int) (now : Int) : St :=
  if 0 < cfg.maxSessionsPerUser then
    if cfg.maxSessionsPerUser ≤
        (zcard (getZSet st.indexes (UserSessKey uid)) : Int) then
      match zhead (getZSet st.indexes (UserSessKey uid)) with
      | some oldSID =>
          { st with sessions := adel st.sessions (SessKey oldSID),
                    indexes := aset st.indexes (UserSessKey uid)
                      (zrem oldSID (getZSet st.indexes (UserSessKey uid))),
                    ledger :=
                      RevokeSession st.ledger oldSID "system:limit" now }
      | none => st
    else st
  else st

/-- Modelled from the spec: the Phase-3 body of SessionService.Login is not
under src (src/internal/session/service.go holds the Phase-2 revision, which
does not compile against its own package test service_test.go: the test
builds the service with a fourth asynq argument and expects ErrUserBanned).
Steps shared with the Phase-2 source are taken verbatim from service.go
lines 45-132: user lookup, credential check, eviction, the live-record and
index writes in one transaction, and the ledger insert.  The missing Phase-3
additions follow spec section 4.1 (and the repository README and tests): the
ban check runs after the user lookup and before the credential check,
durable flag first and fast-store marker second, either one failing the call
with UserBanned; one audit job is enqueued on each classified outcome with
reasons user_not_found, banned_db, banned_redis, wrong_password, or ok; on
success a deferred expiry job is scheduled for the expiry instant.

Inputs that the source obtains from its environment are parameters: verify
is the bcrypt comparison (true when the hash matches the password), now the
clock reading, newSID the generated uuid (globally fresh), pipeOk the
outcome of the mandatory session-write transaction (a failed transaction
applies none of its commands and aborts the call with the store error), and
createOk the outcome of the mandatory ledger insert of service.go lines
122-129: a failed insert writes no row and aborts the call with the store
error, the live record and index entry staying visible (the accepted
inconsistency of spec section 4.1 step 7). -/
def Login (st : St) (cfg : Config) (verify : String → String → Bool)
    (username password : String) (meta : LoginMeta) (now : Int)
    (newSID : String) (pipeOk createOk : Bool) : St × LoginResult :=
  match GetUserByUsername st.users username with
  | none =>
      (EnqueueLoginAudit st
        { userId := none, username := username, success := false,
          reason := "user_not_found", ip := meta.ip,
          userAgent := meta.userAgent },
       .err .invalidCredentials)
  | some u =>
      if u.isBanned then
        (EnqueueLoginAudit st
          { userId := some u.id, username := username, success := false,
            reason := "banned_db", ip := meta.ip,
            userAgent := meta.userAgent },
         .err .userBanned)
      else if st.banned.contains (BannedUserKey u.id) then
        (EnqueueLoginAudit st
          { userId := some u.id, username := username, success := false,
            reason := "banned_redis", ip := meta.ip,
            userAgent := meta.userAgent },
         .err .userBanned)
      else if !(verify u.passwordHash password) then
        (EnqueueLoginAudit st
          { userId := some u.id, username := username, success := false,
            reason := "wrong_password", ip := meta.ip,
            userAgent := meta.userAgent },
         .err .invalidCredentials)
      else
        let expiresAt := now + cfg.sessionTTL
        let st1 := evictOldest st cfg u.id now
        if !pipeOk then (st1, .err .internalError)
        else
          let record : RHash :=
            [("user_id", stringFromInt64 u.id),
             ("created_at", toString now),
             ("expires_at", toString expiresAt),
             ("ip", meta.ip),
             ("user_agent", meta.userAgent)]
          let st2 :=
            { st1 with
                sessions := aset st1.sessions (SessKey newSID) record,
                indexes := aset st1.indexes (UserSessKey u.id)
                  (zadd newSID now (getZSet st1.indexes (UserSessKey u.id))) }
          if !createOk then (st2, .err .internalError)
          else
            let st3 :=
              { st2 with
                  ledger :=
                    CreateSession st2.ledger newSID u.id now expiresAt }
            let st4 := EnqueueSessionExpire st3 newSID u.id
            (EnqueueLoginAudit st4
              { userId := some u.id, username := username, success := true,
                reason := "ok", ip := meta.ip, userAgent := meta.userAgent },
             .ok u newSID expiresAt)

/-- Logout from service.go lines 135-153: one TxPipeline deletes the live
record and removes the index entry (a failed transaction applies nothing and
is returned); the ledger revocation with actor user runs afterwards and its
error is discarded.  revokeOk is the outcome of that discarded durable
update (a failed update changes no rows). -/
def Logout (st : St) (userID : Int) (sessionID : String) (now : Int)
    (pipeOk revokeOk : Bool) : St × Option SvcErr :=
  if !pipeOk then (st, some .internalError)
  else
    let st1 :=
      { st with
          sessions := adel st.sessions (SessKey sessionID),
          indexes := aset st.indexes (UserSessKey userID)
            (zrem sessionID (getZSet st.indexes (UserSessKey userID))) }
    let st2 :=
      if revokeOk then
        { st1 with ledger := RevokeSession st1.ledger sessionID "user" now }
      else st1
    (st2, none)

/-- Result of IsSessionValid: a verdict or a store-access error. -/
inductive ValidRes where
  | ok (valid : Bool)
  | err (e : SvcErr)
deriving DecidableEq

/-- IsSessionValid from service.go lines 156-174: HGetAll the live record
(hgetAllOk is the store access outcome; a missing key is an empty map, not
an error); an empty map is invalid; when a user_id field is present,
nonempty and different from the caller's id rendered in decimal, the session
is invalid; every other case is valid. -/
def IsSessionValid (st : St) (userID : Int) (sessionID : String)
    (hgetAllOk : Bool) : ValidRes :=
  if !hgetAllOk then .err .internalError
  else
    let data := hgetAll st.sessions (SessKey sessionID)
    if data.length = 0 then .ok false
    else
      match alookup data "user_id" with
      | some uidStr =>
          if uidStr != "" && uidStr != stringFromInt64 userID then .ok false
          else .ok true
      | none => .ok true

/-- The session:expire task handler from cmd/worker/main.go lines 66-105:
when the live record is gone the task is treated as already handled;
otherwise one TxPipeline deletes the live record and removes the index
entry, then the ledger row is revoked with actor system:expire. -/
def sessionExpireHandler (st : St) (p : SessionExpirePayload) (now : Int) :
    St × Option SvcErr :=
  let sessKey := SessKey p.sessionId
  let data := hgetAll st.sessions sessKey
  if data.length = 0 then (st, none)
  else
    let st1 :=
      { st with
          sessions := adel st.sessions sessKey,
          indexes := aset st.indexes (UserSessKey p.userId)
            (zrem p.sessionId (getZSet st.indexes (UserSessKey p.userId))) }
    let st2 :=
      { st1 with
          ledger := RevokeSession st1.ledger p.sessionId "system:expire" now }
    (st2, none)

/-- A run of sequential Login calls: each list element supplies the generated
session id and the clock reading of one call; every call's session-write
transaction succeeds. -/
def runLogins (cfg : Config) (verify : String → String → Bool)
    (username password : String) (meta : LoginMeta) :
    St → List (String × Int) → St
  | st, [] => st
  | st, (sid, now) :: rest =>
      runLogins cfg verify username password meta
        (Login st cfg verify username password meta now sid true true).1 rest

/-- JWT claims from internal/token/jwt.go: sub carries the user id and exp
and iat the registered timestamps.  The sid field is part of the Phase-2
claims (pinned by jwt_test.go and by handler_auth.go, which builds tokens
with GenerateWithSession); the jwt.go revision under src is the Phase-1 one
without it. -/
structure Claims where
  userID : Int
  sessionID : String
  iat : Int
  exp : Int
deriving DecidableEq

/-- A signed compact token.  The HMAC-SHA256 signature is modelled
abstractly as the signing inputs themselves (secret, algorithm, claims): two
signatures agree exactly when the same secret signed the same content,
which is the unforgeability contract the codec relies on. -/
structure Token where
  alg : String
  claims : Claims
  sig : String × String × Claims
deriving DecidableEq

/-- Modelled from the spec: GenerateWithSession of the Phase-2 token manager
is called by handler_auth.go and specified by jwt_test.go (sub is the user
id, sid the session id, exp the supplied expiry, iat the issue instant,
HS256 signature with the manager secret), but the jwt.go revision under src
is the Phase-1 one without it. -/
def GenerateWithSession (secret : String) (userID : Int) (sessionID : String)
    (expiresAt now : Int) : Token :=
  let c : Claims := { userID := userID, sessionID := sessionID, iat := now,
                      exp := expiresAt }
  { alg := "HS256", claims := c, sig := (secret, "HS256", c) }

/-- Result of Parse: the verified claims or a rejection. -/
inductive ParseRes where
  | ok (c : Claims)
  | err
deriving DecidableEq

/-- Parse from internal/token/jwt.go lines 60-79: only HS256 is accepted,
the signature must verify with the manager secret, and the registered exp
claim must lie strictly after the current instant (jwt/v5 validation with no
leeway); the verified claims are returned. -/
def Parse (secret : String) (now : Int) (t : Token) : ParseRes :=
  if t.alg != "HS256" then .err
  else if t.sig != (secret, t.alg, t.claims) then .err
  else if t.claims.exp ≤ now then .err
  else .ok t.claims

/-! ### Lemmas about the store primitives -/

theorem find?_filter_ne_eq_none {α : Type} (m : List (String × α)) (k : String) :
    (m.filter (fun p => p.1 != k)).find? (fun p => p.1 == k) = none := by
  rw [List.find?_eq_none]
  intro x hx
  simp only [List.mem_filter, bne_iff_ne, ne_eq] at hx
  simp [hx.2]

theorem alookup_aset_self {α : Type} (m : List (String × α)) (k : String)
    (v : α) : alookup (aset m k v) k = some v := by
  simp [alookup, aset, List.find?_append, find?_filter_ne_eq_none]

theorem alookup_aset_ne {α : Type} (m : List (String × α)) (k k' : String)
    (v : α) (h : k' ≠ k) : alookup (aset m k v) k' = alookup m k' := by
  simp only [alookup, aset, List.find?_append, List.find?_filter]
  have h1 : (List.find? (fun p => p.1 == k') [(k, v)]) = none := by
    simp [Ne.symm h]
  rw [h1]
  have h2 : ∀ p : String × α, ((p.1 != k) ∧ (p.1 == k') : Bool) = (p.1 == k') := by
    intro p
    by_cases hp : p.1 = k'
    · simp [hp, h, Ne.symm h]
    · simp [hp]
  simp only [h2, Option.or_none]

theorem alookup_adel_self {α : Type} (m : List (String × α)) (k : String) :
    alookup (adel m k) k = none := by
  simp [alookup, adel, find?_filter_ne_eq_none]

theorem adel_adel {α : Type} (m : List (String × α)) (k : String) :
    adel (adel m k) k = adel m k := by
  simp [adel, List.filter_filter]

theorem aset_aset {α : Type} (m : List (String × α)) (k : String) (v w : α) :
    aset (aset m k v) k w = aset m k w := by
  simp [aset, List.filter_append, List.filter_filter]

theorem getZSet_aset_self (m : List (String × ZSet)) (k : String) (z : ZSet) :
    getZSet (aset m k z) k = z := by
  simp [getZSet, alookup_aset_self]

theorem getZSet_aset_ne (m : List (String × ZSet)) (k k' : String) (z : ZSet)
    (h : k' ≠ k) : getZSet (aset m k z) k' = getZSet m k' := by
  simp [getZSet, alookup_aset_ne _ _ _ _ h]

theorem zrem_zrem (s : String) (z : ZSet) : zrem s (zrem s z) = zrem s z := by
  simp [zrem, List.filter_filter]

theorem RevokeSession_idem (L : List (String × LedgerRow)) (id a a' : String)
    (n n' : Int) :
    RevokeSession (RevokeSession L id a n) id a' n' = RevokeSession L id a n := by
  unfold RevokeSession
  rw [List.map_map]
  apply List.map_congr_left
  intro p _
  by_cases h : (p.1 == id && p.2.revokedAt.isNone) = true
  · simp only [Bool.and_eq_true, beq_iff_eq, Option.isNone_iff_eq_none] at h
    obtain ⟨h1, h2⟩ := h
    simp [h1, h2]
  · simp only [Bool.and_eq_true, beq_iff_eq, Option.isNone_iff_eq_none,
      not_and] at h
    simp only [Bool.ite_eq_true_distrib] at *
    by_cases h1 : p.1 = id
    · simp [h1, h h1]
    · simp [h1]

theorem alookup_RevokeSession_none (L : List (String × LedgerRow))
    (id a : String) (n : Int) (k : String) (h : alookup L k = none) :
    alookup (RevokeSession L id a n) k = none := by
  simp only [alookup, Option.map_eq_none', List.find?_eq_none] at h ⊢
  intro x hx
  simp only [RevokeSession, List.mem_map] at hx
  obtain ⟨y, hy, hxy⟩ := hx
  have := h y hy
  by_cases hc : (y.1 == id && y.2.revokedAt.isNone) = true
  · rw [if_pos hc] at hxy
    subst hxy
    simpa using this
  · rw [if_neg hc] at hxy
    subst hxy
    exact this

/-! ### Claim theorems -/

/-- C5: Logout is idempotent.  For every user id and session id, calling
Logout twice in succession with the same pair returns success both times,
and the second call changes nothing at all: in particular revoking the
already-revoked or nonexistent ledger row a second time is a no-op rather
than an error. -/
theorem c5_logout_idempotent (st : St) (userID : Int) (sessionID : String)
    (n1 n2 : Int) :
    (Logout st userID sessionID n1 true true).2 = none ∧
    (Logout (Logout st userID sessionID n1 true true).1 userID sessionID
        n2 true true).2 = none ∧
    (Logout (Logout st userID sessionID n1 true true).1 userID sessionID
        n2 true true).1 = (Logout st userID sessionID n1 true true).1 := by
  refine ⟨rfl, rfl, ?_⟩
  simp [Logout, adel_adel, aset_aset, getZSet_aset_self, zrem_zrem,
    RevokeSession_idem]

/-- C10: Logout returns success even when the durable-ledger revocation
fails: whatever the outcome of the discarded RevokeSession update, the call
reports an error exactly when the fast-store delete/remove transaction
fails. -/
theorem c10_logout_discards_revoke_error (st : St) (userID : Int)
    (sessionID : String) (now : Int) (pipeOk revokeOk : Bool) :
    (Logout st userID sessionID now pipeOk revokeOk).2 =
      (if pipeOk then none else some SvcErr.internalError) := by
  cases pipeOk <;> cases revokeOk <;> simp [Logout]

/-- C9: Logout performs no ownership check.  For every state (whatever user
id the live record stores), Logout deletes the live record keyed by the
session id, removes the id from the calling user's index only (every other
index key is untouched), and returns success. -/
theorem c9_logout_no_ownership_check (st : St) (userID : Int)
    (sessionID : String) (now : Int) (k : String)
    (hk : k ≠ UserSessKey userID) :
    (Logout st userID sessionID now true true).2 = none ∧
    alookup (Logout st userID sessionID now true true).1.sessions
      (SessKey sessionID) = none ∧
    getZSet (Logout st userID sessionID now true true).1.indexes
        (UserSessKey userID)
      = zrem sessionID (getZSet st.indexes (UserSessKey userID)) ∧
    getZSet (Logout st userID sessionID now true true).1.indexes k
      = getZSet st.indexes k := by
  refine ⟨rfl, ?_, ?_, ?_⟩
  · simp [Logout, alookup_adel_self]
  · simp [Logout, getZSet_aset_self]
  · simp [Logout, getZSet_aset_ne _ _ _ _ hk]

/-- A concrete state whose single live record belongs to user 99, used to
exercise Logout issued under a different user id. -/
def stOther : St :=
  { users := [], sessions := [("sess:s1", [("user_id", "99")])],
    indexes := [("user_sess:1", [("s1", 7)])], banned := [],
    ledger := [], expireJobs := [], auditJobs := [] }

/-- C9 witness: a state whose live record belongs to user 99 still has that
record deleted by a Logout issued with user id 1. -/
theorem c9_witness :
    ("other" ≠ UserSessKey 1) ∧
    ((Logout stOther 1 "s1" 5 true true).2 = none ∧
     alookup (Logout stOther 1 "s1" 5 true true).1.sessions
       (SessKey "s1") = none ∧
     getZSet (Logout stOther 1 "s1" 5 true true).1.indexes (UserSessKey 1)
       = zrem "s1" (getZSet stOther.indexes (UserSessKey 1)) ∧
     getZSet (Logout stOther 1 "s1" 5 true true).1.indexes "other"
       = getZSet stOther.indexes "other") :=
  ⟨by decide,
   c9_logout_no_ownership_check stOther 1 "s1" 5 "other" (by decide)⟩

/-- The user_id guard of IsSessionValid as the source applies it: a live
record is rejected only when it carries a user_id field that is nonempty
and differs from the caller's id in decimal. -/
def uidFieldRejects (data : RHash) (userID : Int) : Bool :=
  match alookup data "user_id" with
  | some uidStr => uidStr != "" && uidStr != stringFromInt64 userID
  | none => false

/-- A state holding one live record whose user_id field is stored but empty. -/
def stEmptyUid : St :=
  { users := [], sessions := [("sess:s1", [("user_id", ""), ("created_at", "0")])],
    indexes := [], banned := [], ledger := [], expireJobs := [],
    auditJobs := [] }

/-- C3 counterexample: a live record that is present and whose stored
user_id field (the empty string) does not match the caller-supplied user id
5 is nonetheless reported valid, where the claim requires false. -/
theorem c3_counterexample :
    hgetAll stEmptyUid.sessions (SessKey "s1") ≠ [] ∧
    alookup (hgetAll stEmptyUid.sessions (SessKey "s1")) "user_id" = some "" ∧
    "" ≠ stringFromInt64 5 ∧
    IsSessionValid stEmptyUid 5 "s1" true = .ok true := by decide

/-- C3 amended: IsSessionValid returns false with no error when the live
record is absent; returns false when the record is present and carries a
user_id field that is nonempty and differs from the caller-supplied id;
returns true otherwise (in particular when the user_id field is absent or
empty).  It never reads the durable ledger, and it returns an error exactly
on fast-store access failure. -/
theorem c3_validity_check (st : St) (userID : Int) (sessionID : String)
    (L : List (String × LedgerRow)) :
    IsSessionValid st userID sessionID true =
      .ok (!(hgetAll st.sessions (SessKey sessionID)).isEmpty &&
           !uidFieldRejects (hgetAll st.sessions (SessKey sessionID)) userID) ∧
    IsSessionValid st userID sessionID false = .err .internalError ∧
    IsSessionValid { st with ledger := L } userID sessionID true =
      IsSessionValid st userID sessionID true := by
  refine ⟨?_, by simp [IsSessionValid], rfl⟩
  by_cases hd : hgetAll st.sessions (SessKey sessionID) = []
  · simp [IsSessionValid, uidFieldRejects, hd]
  · have hlen : ¬ (hgetAll st.sessions (SessKey sessionID)).length = 0 := by
      simpa [List.length_eq_zero] using hd
    have hne : (hgetAll st.sessions (SessKey sessionID)).isEmpty = false := by
      simpa [List.isEmpty_iff] using hd
    cases hfield : alookup (hgetAll st.sessions (SessKey sessionID)) "user_id" with
    | none => simp [IsSessionValid, uidFieldRejects, hlen, hfield, hne]
    | some v =>
      by_cases hv : (v != "" && v != stringFromInt64 userID) = true
      · simp [IsSessionValid, uidFieldRejects, hlen, hfield, hv, hne]
      · simp [IsSessionValid, uidFieldRejects, hlen, hfield, hv, hne]

/-- Shortcut for the session:expire handler's already-handled path: when the
live record is gone the task completes without touching any state. -/
theorem sessionExpireHandler_absent (st : St) (p : SessionExpirePayload)
    (now : Int) (h : hgetAll st.sessions (SessKey p.sessionId) = []) :
    sessionExpireHandler st p now = (st, none) := by
  simp [sessionExpireHandler, h]

/-- C7: the deferred-expiry handler treats a missing live record as already
handled (no-op success), and otherwise deletes the live record, removes the
index entry of the payload's user, revokes the ledger row with actor
system:expire, and succeeds; running the handler a second time for the same
payload is a successful no-op. -/
theorem c7_expiry_handler (st : St) (p : SessionExpirePayload)
    (now now2 : Int) :
    (hgetAll st.sessions (SessKey p.sessionId) = [] →
       sessionExpireHandler st p now = (st, none)) ∧
    (hgetAll st.sessions (SessKey p.sessionId) ≠ [] →
       (sessionExpireHandler st p now).2 = none ∧
       alookup (sessionExpireHandler st p now).1.sessions
         (SessKey p.sessionId) = none ∧
       getZSet (sessionExpireHandler st p now).1.indexes (UserSessKey p.userId)
         = zrem p.sessionId (getZSet st.indexes (UserSessKey p.userId)) ∧
       (sessionExpireHandler st p now).1.ledger
         = RevokeSession st.ledger p.sessionId "system:expire" now) ∧
    sessionExpireHandler (sessionExpireHandler st p now).1 p now2
      = ((sessionExpireHandler st p now).1, none) := by
  by_cases hd : hgetAll st.sessions (SessKey p.sessionId) = []
  · refine ⟨fun _ => sessionExpireHandler_absent st p now hd,
      fun hne => absurd hd hne, ?_⟩
    rw [sessionExpireHandler_absent st p now hd]
    exact sessionExpireHandler_absent st p now2 hd
  · have hlen : ¬ (hgetAll st.sessions (SessKey p.sessionId)).length = 0 := by
      simpa [List.length_eq_zero] using hd
    have hst1 : (sessionExpireHandler st p now).1 =
        { st with
            sessions := adel st.sessions (SessKey p.sessionId),
            indexes := aset st.indexes (UserSessKey p.userId)
              (zrem p.sessionId (getZSet st.indexes (UserSessKey p.userId))),
            ledger := RevokeSession st.ledger p.sessionId "system:expire" now } := by
      simp [sessionExpireHandler, hlen]
    refine ⟨fun h => absurd h hd, fun _ => ?_, ?_⟩
    · refine ⟨by simp [sessionExpireHandler, hlen], ?_, ?_, ?_⟩
      · rw [hst1]; exact alookup_adel_self _ _
      · rw [hst1]; exact getZSet_aset_self _ _ _
      · rw [hst1]
    · apply sessionExpireHandler_absent
      rw [hst1]
      simp [hgetAll, alookup_adel_self]

/-- A concrete state holding the live record, index entry and unrevoked
ledger row of session x of user 7. -/
def stLive : St :=
  { users := [], sessions := [("sess:x", [("user_id", "7")])],
    indexes := [("user_sess:7", [("x", 3)])], banned := [],
    ledger := [("x", { userId := 7, createdAt := 3, expiresAt := 100,
                       revokedAt := none, revokedBy := none })],
    expireJobs := [], auditJobs := [] }

/-- C7 witness: on a state holding session x of user 7, the expiry job
deletes the live record, clears the index entry, revokes the ledger row
with actor system:expire, and a repeated delivery is a successful no-op. -/
theorem c7_witness :
    (hgetAll stLive.sessions (SessKey (SessionExpirePayload.mk "x" 7).sessionId)
       ≠ [] ∧
     ((sessionExpireHandler stLive ⟨"x", 7⟩ 99).2 = none ∧
      alookup (sessionExpireHandler stLive ⟨"x", 7⟩ 99).1.sessions
        (SessKey (SessionExpirePayload.mk "x" 7).sessionId) = none ∧
      getZSet (sessionExpireHandler stLive ⟨"x", 7⟩ 99).1.indexes
          (UserSessKey (SessionExpirePayload.mk "x" 7).userId)
        = zrem (SessionExpirePayload.mk "x" 7).sessionId
            (getZSet stLive.indexes
              (UserSessKey (SessionExpirePayload.mk "x" 7).userId)) ∧
      (sessionExpireHandler stLive ⟨"x", 7⟩ 99).1.ledger
        = RevokeSession stLive.ledger (SessionExpirePayload.mk "x" 7).sessionId
            "system:expire" 99)) ∧
    sessionExpireHandler (sessionExpireHandler stLive ⟨"x", 7⟩ 99).1
        ⟨"x", 7⟩ 100
      = ((sessionExpireHandler stLive ⟨"x", 7⟩ 99).1, none) :=
  ⟨⟨by decide, (c7_expiry_handler stLive ⟨"x", 7⟩ 99 100).2.1 (by decide)⟩,
   (c7_expiry_handler stLive ⟨"x", 7⟩ 99 100).2.2⟩

/-! ### Projection lemmas for the eviction block and Login -/

theorem evictOldest_users (st : St) (cfg : Config) (uid now : Int) :
    (evictOldest st cfg uid now).users = st.users := by
  unfold evictOldest
  repeat' split
  all_goals rfl

theorem evictOldest_banned (st : St) (cfg : Config) (uid now : Int) :
    (evictOldest st cfg uid now).banned = st.banned := by
  unfold evictOldest
  repeat' split
  all_goals rfl

theorem evictOldest_auditJobs (st : St) (cfg : Config) (uid now : Int) :
    (evictOldest st cfg uid now).auditJobs = st.auditJobs := by
  unfold evictOldest
  repeat' split
  all_goals rfl

theorem evictOldest_expireJobs (st : St) (cfg : Config) (uid now : Int) :
    (evictOldest st cfg uid now).expireJobs = st.expireJobs := by
  unfold evictOldest
  repeat' split
  all_goals rfl

theorem evictOldest_ledger_fresh (st : St) (cfg : Config) (uid now : Int)
    (k : String) (h : alookup st.ledger k = none) :
    alookup (evictOldest st cfg uid now).ledger k = none := by
  unfold evictOldest
  split
  · split
    · split
      · exact alookup_RevokeSession_none _ _ _ _ _ h
      · exact h
    · exact h
  · exact h

/-- C1: for every user resolved by the supplied username whose durable ban
flag is set or whose fast-store ban marker exists, every Login call (with
any password) fails with UserBanned and creates no session: the live
records, indexes, ledger and expiry queue are all left untouched. -/
theorem c1_banned_login_fails (st : St) (cfg : Config)
    (verify : String → String → Bool) (username password : String)
    (meta : LoginMeta) (now : Int) (newSID : String)
    (pipeOk createOk : Bool)
    (u : User) (hu : GetUserByUsername st.users username = some u)
    (hban : u.isBanned = true ∨
            st.banned.contains (BannedUserKey u.id) = true) :
    (Login st cfg verify username password meta now newSID pipeOk createOk).2
      = .err .userBanned ∧
    (Login st cfg verify username password meta now newSID pipeOk createOk).1.sessions
      = st.sessions ∧
    (Login st cfg verify username password meta now newSID pipeOk createOk).1.indexes
      = st.indexes ∧
    (Login st cfg verify username password meta now newSID pipeOk createOk).1.ledger
      = st.ledger ∧
    (Login st cfg verify username password meta now newSID pipeOk createOk).1.expireJobs
      = st.expireJobs := by
  rcases hban with h | h
  · simp [Login, hu, h, EnqueueLoginAudit]
  · have h' : BannedUserKey u.id ∈ st.banned := by simpa using h
    cases hdb : u.isBanned
    · simp [Login, hu, hdb, h', EnqueueLoginAudit]
    · simp [Login, hu, hdb, EnqueueLoginAudit]

/-- A state holding a user banned in the durable store and, independently,
a user banned only through the fast-store marker. -/
def stBans : St :=
  { users := [{ id := 1, username := "alice", passwordHash := "hA",
                isBanned := true },
              { id := 2, username := "bob", passwordHash := "hB",
                isBanned := false }],
    sessions := [], indexes := [], banned := [BannedUserKey 2],
    ledger := [], expireJobs := [], auditJobs := [] }

/-- C1 witness: on a user banned in the durable store (alice) a login with a
matching password is refused with UserBanned and creates nothing. -/
theorem c1_witness :
    (GetUserByUsername stBans.users "alice"
       = some { id := 1, username := "alice", passwordHash := "hA",
                isBanned := true }) ∧
    ((Login stBans ⟨3600, 2⟩ (fun h p => h == p) "alice" "hA" ⟨"ip", "ua"⟩
        5 "sidN" true true).2 = .err .userBanned ∧
     (Login stBans ⟨3600, 2⟩ (fun h p => h == p) "alice" "hA" ⟨"ip", "ua"⟩
        5 "sidN" true true).1.sessions = stBans.sessions ∧
     (Login stBans ⟨3600, 2⟩ (fun h p => h == p) "alice" "hA" ⟨"ip", "ua"⟩
        5 "sidN" true true).1.indexes = stBans.indexes ∧
     (Login stBans ⟨3600, 2⟩ (fun h p => h == p) "alice" "hA" ⟨"ip", "ua"⟩
        5 "sidN" true true).1.ledger = stBans.ledger ∧
     (Login stBans ⟨3600, 2⟩ (fun h p => h == p) "alice" "hA" ⟨"ip", "ua"⟩
        5 "sidN" true true).1.expireJobs = stBans.expireJobs) :=
  ⟨by decide,
   c1_banned_login_fails stBans ⟨3600, 2⟩ (fun h p => h == p) "alice" "hA"
     ⟨"ip", "ua"⟩ 5 "sidN" true true
     { id := 1, username := "alice", passwordHash := "hA", isBanned := true }
     (by decide) (Or.inl (by decide))⟩

/-- A user at the configured session cap: one live session, its index entry
scored 0, and its unrevoked ledger row. -/
def stAtCap : St :=
  { users := [{ id := 1, username := "alice", passwordHash := "pw",
                isBanned := false }],
    sessions := [("sess:old", [("user_id", "1")])],
    indexes := [("user_sess:1", [("old", 0)])], banned := [],
    ledger := [("old", { userId := 1, createdAt := 0, expiresAt := 50,
                         revokedAt := none, revokedBy := none })],
    expireJobs := [], auditJobs := [] }

/-- C6 counterexample: with the user at the session cap, a Login whose
session-write transaction fails does abort with an error, yet the durable
store is NOT unchanged by the failed call: the best-effort eviction that ran
earlier in the same call has already revoked the evicted session's ledger
row. -/
theorem c6_counterexample :
    (Login stAtCap ⟨3600, 1⟩ (fun h p => h == p) "alice" "pw" ⟨"ip", "ua"⟩
       5 "new" false true).2 = .err .internalError ∧
    (Login stAtCap ⟨3600, 1⟩ (fun h p => h == p) "alice" "pw" ⟨"ip", "ua"⟩
       5 "new" false true).1.ledger ≠ stAtCap.ledger := by decide

/-- C6 amended: if the fast-store transaction that writes the new live
record and index entry fails, Login aborts with an error and no ledger row
keyed by the new session id is inserted; the rest of the durable store,
however, may already differ because the same call's best-effort eviction
can have revoked the evicted session's ledger row. -/
theorem c6_pipe_failure_no_new_ledger_row (st : St) (cfg : Config)
    (verify : String → String → Bool) (username password : String)
    (meta : LoginMeta) (now : Int) (newSID : String) (createOk : Bool)
    (u : User)
    (hu : GetUserByUsername st.users username = some u)
    (hdb : u.isBanned = false)
    (hmark : st.banned.contains (BannedUserKey u.id) = false)
    (hv : verify u.passwordHash password = true)
    (hfresh : alookup st.ledger newSID = none) :
    (Login st cfg verify username password meta now newSID false createOk).2
      = .err .internalError ∧
    alookup (Login st cfg verify username password meta now newSID false
        createOk).1.ledger newSID = none := by
  have hmark2 : BannedUserKey u.id ∉ st.banned := by simpa using hmark
  have hred : Login st cfg verify username password meta now newSID false
        createOk
      = (evictOldest st cfg u.id now, .err .internalError) := by
    simp [Login, hu, hdb, hmark2, hv]
  rw [hred]
  exact ⟨rfl, evictOldest_ledger_fresh st cfg u.id now newSID hfresh⟩

/-- C6 witness: the amended statement at the same at-cap configuration. -/
theorem c6_witness :
    (GetUserByUsername stAtCap.users "alice"
       = some { id := 1, username := "alice", passwordHash := "pw",
                isBanned := false } ∧
     alookup stAtCap.ledger "new" = none) ∧
    ((Login stAtCap ⟨3600, 1⟩ (fun h p => h == p) "alice" "pw" ⟨"ip", "ua"⟩
        5 "new" false true).2 = .err .internalError ∧
     alookup (Login stAtCap ⟨3600, 1⟩ (fun h p => h == p) "alice" "pw"
        ⟨"ip", "ua"⟩ 5 "new" false true).1.ledger "new" = none) :=
  ⟨⟨by decide, by decide⟩,
   c6_pipe_failure_no_new_ledger_row stAtCap ⟨3600, 1⟩ (fun h p => h == p)
     "alice" "pw" ⟨"ip", "ua"⟩ 5 "new" true
     { id := 1, username := "alice", passwordHash := "pw", isBanned := false }
     (by decide) (by decide) (by decide) (by decide) (by decide)⟩

/-- C4: every Login call on one of the four classified outcomes (the
session-write transaction and the ledger insert succeeding, so that no
internal error arises) enqueues exactly one login-audit job for the
caller's username, whose success flag and reason code match the outcome
the inputs determine: user_not_found with an InvalidCredentials failure
when the username resolves to no user, banned_db with UserBanned when the
resolved user's durable ban flag is set, banned_redis with UserBanned when
only the fast-store marker signals the ban, wrong_password with
InvalidCredentials when the credential check fails, and ok with a true
success flag together with the successful result otherwise. -/
theorem c4_audit_every_outcome (st : St) (cfg : Config)
    (verify : String → String → Bool) (username password : String)
    (meta : LoginMeta) (now : Int) (newSID : String) :
    ∃ p : LoginAuditPayload,
      (Login st cfg verify username password meta now newSID true
          true).1.auditJobs = st.auditJobs ++ [p] ∧
      p.username = username ∧
      (GetUserByUsername st.users username = none →
        p.userId = none ∧ p.success = false ∧
        p.reason = "user_not_found" ∧
        (Login st cfg verify username password meta now newSID true true).2
          = .err .invalidCredentials) ∧
      (∀ u, GetUserByUsername st.users username = some u →
        p.userId = some u.id ∧
        (u.isBanned = true →
          p.success = false ∧ p.reason = "banned_db" ∧
          (Login st cfg verify username password meta now newSID true
              true).2 = .err .userBanned) ∧
        (u.isBanned = false → BannedUserKey u.id ∈ st.banned →
          p.success = false ∧ p.reason = "banned_redis" ∧
          (Login st cfg verify username password meta now newSID true
              true).2 = .err .userBanned) ∧
        (u.isBanned = false → BannedUserKey u.id ∉ st.banned →
          verify u.passwordHash password = false →
          p.success = false ∧ p.reason = "wrong_password" ∧
          (Login st cfg verify username password meta now newSID true
              true).2 = .err .invalidCredentials) ∧
        (u.isBanned = false → BannedUserKey u.id ∉ st.banned →
          verify u.passwordHash password = true →
          p.success = true ∧ p.reason = "ok" ∧
          (Login st cfg verify username password meta now newSID true
              true).2 = .ok u newSID (now + cfg.sessionTTL))) := by
  rcases hgu : GetUserByUsername st.users username with _ | u
  · refine ⟨{ userId := none, username := username, success := false, reason := "user_not_found", ip := meta.ip, userAgent := meta.userAgent }, ?_, rfl, ?_, ?_⟩
    · simp [Login, hgu, EnqueueLoginAudit]
    · intro _
      exact ⟨rfl, rfl, rfl, by simp [Login, hgu]⟩
    · intro u0 h
      exact absurd h (by simp)
  · by_cases hdb : u.isBanned = true
    · refine ⟨{ userId := some u.id, username := username, success := false, reason := "banned_db", ip := meta.ip, userAgent := meta.userAgent }, ?_, rfl, ?_, ?_⟩
      · simp [Login, hgu, hdb, EnqueueLoginAudit]
      · intro h
        exact absurd h (by simp)
      · intro u0 h
        injection h with h2
        subst h2
        refine ⟨rfl, ?_, ?_, ?_, ?_⟩
        · intro _
          exact ⟨rfl, rfl, by simp [Login, hgu, hdb]⟩
        · intro hfalse _
          simp [hdb] at hfalse
        · intro hfalse _ _
          simp [hdb] at hfalse
        · intro hfalse _ _
          simp [hdb] at hfalse
    · have hdb2 : u.isBanned = false := by simpa using hdb
      by_cases hmark : BannedUserKey u.id ∈ st.banned
      · refine ⟨{ userId := some u.id, username := username, success := false, reason := "banned_redis", ip := meta.ip, userAgent := meta.userAgent }, ?_, rfl, ?_, ?_⟩
        · simp [Login, hgu, hdb2, hmark, EnqueueLoginAudit]
        · intro h
          exact absurd h (by simp)
        · intro u0 h
          injection h with h2
          subst h2
          refine ⟨rfl, ?_, ?_, ?_, ?_⟩
          · intro htrue
            simp [hdb2] at htrue
          · intro _ _
            exact ⟨rfl, rfl, by simp [Login, hgu, hdb2, hmark]⟩
          · intro _ hnm _
            exact absurd hmark hnm
          · intro _ hnm _
            exact absurd hmark hnm
      · by_cases hv : verify u.passwordHash password = true
        · refine ⟨{ userId := some u.id, username := username, success := true, reason := "ok", ip := meta.ip, userAgent := meta.userAgent }, ?_, rfl, ?_, ?_⟩
          · simp [Login, hgu, hdb2, hmark, hv, EnqueueLoginAudit,
              EnqueueSessionExpire, evictOldest_auditJobs]
          · intro h
            exact absurd h (by simp)
          · intro u0 h
            injection h with h2
            subst h2
            refine ⟨rfl, ?_, ?_, ?_, ?_⟩
            · intro htrue
              simp [hdb2] at htrue
            · intro _ hin
              exact absurd hin hmark
            · intro _ _ hvfalse
              simp [hv] at hvfalse
            · intro _ _ _
              exact ⟨rfl, rfl, by simp [Login, hgu, hdb2, hmark, hv]⟩
        · have hv2 : verify u.passwordHash password = false := by
            simpa using hv
          refine ⟨{ userId := some u.id, username := username, success := false, reason := "wrong_password", ip := meta.ip, userAgent := meta.userAgent }, ?_, rfl, ?_, ?_⟩
          · simp [Login, hgu, hdb2, hmark, hv2, EnqueueLoginAudit]
          · intro h
            exact absurd h (by simp)
          · intro u0 h
            injection h with h2
            subst h2
            refine ⟨rfl, ?_, ?_, ?_, ?_⟩
            · intro htrue
              simp [hdb2] at htrue
            · intro _ hin
              exact absurd hin hmark
            · intro _ _ _
              exact ⟨rfl, rfl, by simp [Login, hgu, hdb2, hmark, hv2]⟩
            · intro _ _ hvtrue
              simp [hv2] at hvtrue

/-- C8: for every successful Login and every check instant strictly before
the returned expiry, the token issued over the returned pair round-trips
through the codec: the returned session id is the one written by this call,
and Parse yields claims carrying exactly the same user id and session id. -/
theorem c8_token_roundtrip (st : St) (cfg : Config)
    (verify : String → String → Bool) (username password : String)
    (meta : LoginMeta) (now : Int) (newSID : String) (secret : String)
    (tIssue checkTime : Int) (u : User) (sid : String) (expAt : Int)
    (hlogin : (Login st cfg verify username password meta now newSID true
        true).2 = .ok u sid expAt)
    (ht : checkTime < expAt) :
    sid = newSID ∧
    Parse secret checkTime (GenerateWithSession secret u.id sid expAt tIssue)
      = .ok { userID := u.id, sessionID := sid, iat := tIssue,
              exp := expAt } := by
  constructor
  · rcases hgu : GetUserByUsername st.users username with _ | u0
    · simp [Login, hgu] at hlogin
    · simp only [Login, hgu] at hlogin
      split at hlogin
      · simp at hlogin
      · split at hlogin
        · simp at hlogin
        · split at hlogin
          · simp at hlogin
          · split at hlogin
            · simp at hlogin
            · simp only [LoginResult.ok.injEq] at hlogin
              exact hlogin.2.1.symm
  · have hne : ¬ (expAt ≤ checkTime) := not_le.mpr ht
    simp [Parse, GenerateWithSession, hne]

/-- An unbanned user with no state at all: carol, id 3. -/
def stFree : St :=
  { users := [{ id := 3, username := "carol", passwordHash := "hC",
                isBanned := false }],
    sessions := [], indexes := [], banned := [], ledger := [],
    expireJobs := [], auditJobs := [] }

/-- C8 witness: a concrete successful login of carol and a round-trip of its
token checked before expiry. -/
theorem c8_witness :
    ((Login stFree ⟨3600, 2⟩ (fun h p => h == p) "carol" "hC" ⟨"ip", "ua"⟩
        5 "sidC" true true).2
      = .ok { id := 3, username := "carol", passwordHash := "hC",
              isBanned := false } "sidC" 3605 ∧
     (50 : Int) < 3605) ∧
    ("sidC" = "sidC" ∧
     Parse "secret" 50 (GenerateWithSession "secret" 3 "sidC" 3605 5)
       = .ok { userID := 3, sessionID := "sidC", iat := 5, exp := 3605 }) :=
  ⟨⟨by decide, by decide⟩,
   c8_token_roundtrip stFree ⟨3600, 2⟩ (fun h p => h == p) "carol" "hC"
     ⟨"ip", "ua"⟩ 5 "sidC" "secret" 5 50
     { id := 3, username := "carol", passwordHash := "hC", isBanned := false }
     "sidC" 3605 (by decide) (by decide)⟩

/-! ### Lemmas for the concurrency-cap run (claim C2) -/

theorem Login_users (st : St) (cfg : Config) (verify : String → String → Bool)
    (username password : String) (meta : LoginMeta) (now : Int)
    (sid : String) (pipeOk createOk : Bool) :
    (Login st cfg verify username password meta now sid
        pipeOk createOk).1.users = st.users := by
  unfold Login
  repeat' split
  all_goals
    simp [EnqueueLoginAudit, EnqueueSessionExpire, evictOldest_users]

theorem Login_banned (st : St) (cfg : Config) (verify : String → String → Bool)
    (username password : String) (meta : LoginMeta) (now : Int)
    (sid : String) (pipeOk createOk : Bool) :
    (Login st cfg verify username password meta now sid
        pipeOk createOk).1.banned = st.banned := by
  unfold Login
  repeat' split
  all_goals
    simp [EnqueueLoginAudit, EnqueueSessionExpire, evictOldest_banned]

theorem Login_indexes_success (st : St) (cfg : Config)
    (verify : String → String → Bool) (username password : String)
    (meta : LoginMeta) (now : Int) (sid : String) (u : User)
    (hgu : GetUserByUsername st.users username = some u)
    (hdb : u.isBanned = false)
    (hmark : BannedUserKey u.id ∉ st.banned)
    (hv : verify u.passwordHash password = true) :
    (Login st cfg verify username password meta now sid true true).1.indexes
      = aset (evictOldest st cfg u.id now).indexes (UserSessKey u.id)
          (zadd sid now
            (getZSet (evictOldest st cfg u.id now).indexes
              (UserSessKey u.id))) := by
  simp [Login, hgu, hdb, hmark, hv, EnqueueLoginAudit, EnqueueSessionExpire]

theorem evictOldest_of_below_cap (st : St) (cfg : Config) (uid now : Int)
    (h : (zcard (getZSet st.indexes (UserSessKey uid)) : Int)
      < cfg.maxSessionsPerUser) :
    evictOldest st cfg uid now = st := by
  unfold evictOldest
  by_cases h1 : 0 < cfg.maxSessionsPerUser
  · rw [if_pos h1, if_neg (not_le.mpr h)]
  · rw [if_neg h1]

theorem evictOldest_of_at_cap (st : St) (cfg : Config) (uid now : Int)
    (oldSID : String) (h1 : 0 < cfg.maxSessionsPerUser)
    (h2 : cfg.maxSessionsPerUser
      ≤ (zcard (getZSet st.indexes (UserSessKey uid)) : Int))
    (hz : zhead (getZSet st.indexes (UserSessKey uid)) = some oldSID) :
    evictOldest st cfg uid now
      = { st with
            sessions := adel st.sessions (SessKey oldSID),
            indexes := aset st.indexes (UserSessKey uid)
              (zrem oldSID (getZSet st.indexes (UserSessKey uid))),
            ledger := RevokeSession st.ledger oldSID "system:limit" now } := by
  unfold evictOldest
  rw [if_pos h1, if_pos h2, hz]

theorem foldl_zminPick_of_gt (b : String × Int) (l : ZSet)
    (h : ∀ p ∈ l, b.2 < p.2) : l.foldl zminPick b = b := by
  induction l with
  | nil => rfl
  | cons x xs ih =>
      have hx : b.2 < x.2 := h x (List.mem_cons_self x xs)
      have hbx : zminPick b x = b := by
        unfold zminPick
        rw [if_neg]
        rintro (hlt | ⟨heq, _⟩) <;> omega
      rw [List.foldl_cons, hbx]
      exact ih (fun p hp => h p (List.mem_cons_of_mem x hp))

theorem zhead_cons_of_gt (x : String × Int) (xs : ZSet)
    (h : ∀ p ∈ xs, x.2 < p.2) : zhead (x :: xs) = some x.1 := by
  show some ((xs.foldl zminPick x).1) = some x.1
  rw [foldl_zminPick_of_gt x xs h]

theorem zrem_of_fresh (member : String) (z : ZSet)
    (h : member ∉ z.map Prod.fst) : zrem member z = z := by
  unfold zrem
  rw [List.filter_eq_self]
  intro p hp
  have : p.1 ≠ member := by
    intro hc
    exact h (hc ▸ List.mem_map_of_mem Prod.fst hp)
  simpa using this

theorem zadd_of_fresh (member : String) (score : Int) (z : ZSet)
    (h : member ∉ z.map Prod.fst) :
    zadd member score z = z ++ [(member, score)] := by
  unfold zadd
  rw [zrem_of_fresh member z h]

theorem runLogins_cons (cfg : Config) (verify : String → String → Bool)
    (username password : String) (meta : LoginMeta) (st : St) (sid : String)
    (now : Int) (rest : List (String × Int)) :
    runLogins cfg verify username password meta st ((sid, now) :: rest)
      = runLogins cfg verify username password meta
          (Login st cfg verify username password meta now sid true
            true).1 rest :=
  rfl

theorem runLogins_append (cfg : Config) (verify : String → String → Bool)
    (username password : String) (meta : LoginMeta)
    (ps1 ps2 : List (String × Int)) (st : St) :
    runLogins cfg verify username password meta st (ps1 ++ ps2)
      = runLogins cfg verify username password meta
          (runLogins cfg verify username password meta st ps1) ps2 := by
  induction ps1 generalizing st with
  | nil => rfl
  | cons q rest ih =>
      obtain ⟨sid, now⟩ := q
      rw [List.cons_append, runLogins_cons, runLogins_cons, ih]

/-- A run of logins that stays strictly below the session cap: no eviction
happens, every call appends its session to the per-user index, and the
durable user rows and ban markers are untouched. -/
theorem runLogins_below_cap (cfg : Config) (verify : String → String → Bool)
    (username password : String) (meta : LoginMeta) (u : User)
    (hdb : u.isBanned = false)
    (hv : verify u.passwordHash password = true) :
    ∀ (ps : List (String × Int)) (st : St),
      GetUserByUsername st.users username = some u →
      BannedUserKey u.id ∉ st.banned →
      ((zcard (getZSet st.indexes (UserSessKey u.id)) : Int) + ps.length
        ≤ cfg.maxSessionsPerUser) →
      (∀ q ∈ ps,
        q.1 ∉ (getZSet st.indexes (UserSessKey u.id)).map Prod.fst) →
      (ps.map Prod.fst).Nodup →
      getZSet (runLogins cfg verify username password meta st ps).indexes
          (UserSessKey u.id)
        = getZSet st.indexes (UserSessKey u.id) ++ ps ∧
      (runLogins cfg verify username password meta st ps).users = st.users ∧
      (runLogins cfg verify username password meta st ps).banned
        = st.banned := by
  intro ps
  induction ps with
  | nil =>
      intro st _ _ _ _ _
      exact ⟨by simp [runLogins], rfl, rfl⟩
  | cons q rest ih =>
      intro st hgu hmark hcount hfresh hnd
      obtain ⟨sid, tnow⟩ := q
      have hlt : (zcard (getZSet st.indexes (UserSessKey u.id)) : Int)
          < cfg.maxSessionsPerUser := by
        simp only [List.length_cons] at hcount
        push_cast at hcount ⊢
        omega
      have hev : evictOldest st cfg u.id tnow = st :=
        evictOldest_of_below_cap st cfg u.id tnow hlt
      have hfresh1 : sid ∉ (getZSet st.indexes (UserSessKey u.id)).map
          Prod.fst :=
        hfresh (sid, tnow) (List.mem_cons_self _ _)
      have hidx : (Login st cfg verify username password meta tnow sid
            true true).1.indexes
          = aset st.indexes (UserSessKey u.id)
              (getZSet st.indexes (UserSessKey u.id) ++ [(sid, tnow)]) := by
        rw [Login_indexes_success st cfg verify username password meta tnow
          sid u hgu hdb hmark hv, hev,
          zadd_of_fresh sid tnow _ hfresh1]
      have hzs1 : getZSet (Login st cfg verify username password meta tnow
            sid true true).1.indexes (UserSessKey u.id)
          = getZSet st.indexes (UserSessKey u.id) ++ [(sid, tnow)] := by
        rw [hidx, getZSet_aset_self]
      have hnd1 : sid ∉ rest.map Prod.fst ∧ (rest.map Prod.fst).Nodup := by
        simpa [List.nodup_cons] using hnd
      obtain ⟨ih1, ih2, ih3⟩ :=
        ih (Login st cfg verify username password meta tnow sid
            true true).1
          (by rw [Login_users]; exact hgu)
          (by rw [Login_banned]; exact hmark)
          (by
            rw [hzs1]
            simp [zcard] at hcount ⊢
            omega)
          (by
            intro q hq
            rw [hzs1]
            simp only [List.map_append, List.mem_append]
            rintro (hin | hin)
            · exact absurd hin
                (hfresh q (List.mem_cons_of_mem _ hq) : q.1 ∉ _)
            · simp only [List.map_cons, List.map_nil, List.mem_singleton]
                at hin
              exact hnd1.1 (hin ▸ List.mem_map_of_mem Prod.fst hq))
          hnd1.2
      refine ⟨?_, ?_, ?_⟩
      · rw [runLogins_cons, ih1, hzs1, List.append_assoc]
        rfl
      · rw [runLogins_cons, ih2, Login_users]
      · rw [runLogins_cons, ih3, Login_banned]

/-- C2: with a configured cap of N > 0 sessions per user, starting from an
empty per-user index, N+1 sequential successful logins with pairwise
distinct session ids and strictly increasing creation times leave the index
holding exactly the N entries of all calls but the first: the final index
is the run's tail, it has exactly N entries, and the first (oldest) session
id is the single absent one — the only call that finds the index at the cap
evicts precisely the lowest-scored entry before adding its own. -/
theorem c2_cap_evicts_oldest (N : Nat) (hN : 0 < N) (cfg : Config)
    (hcfg : cfg.maxSessionsPerUser = (N : Int)) (st : St) (u : User)
    (verify : String → String → Bool) (username password : String)
    (meta : LoginMeta)
    (hgu : GetUserByUsername st.users username = some u)
    (hdb : u.isBanned = false)
    (hmark : BannedUserKey u.id ∉ st.banned)
    (hv : verify u.passwordHash password = true)
    (hempty : getZSet st.indexes (UserSessKey u.id) = [])
    (ps : List (String × Int)) (p0 : String × Int)
    (hlen : ps.length = N + 1)
    (hhead : ps.head? = some p0)
    (hnd : (ps.map Prod.fst).Nodup)
    (hmono : (ps.map Prod.snd).Pairwise (fun a b : Int => a < b)) :
    getZSet (runLogins cfg verify username password meta st ps).indexes
        (UserSessKey u.id) = ps.tail ∧
    (getZSet (runLogins cfg verify username password meta st ps).indexes
        (UserSessKey u.id)).length = N ∧
    p0.1 ∉ (getZSet (runLogins cfg verify username password meta st
        ps).indexes (UserSessKey u.id)).map Prod.fst := by
  cases ps with
  | nil => simp at hhead
  | cons q tail =>
  simp only [List.head?_cons, Option.some.injEq] at hhead
  subst q
  have htlen : tail.length = N := by
    simpa using hlen
  have htne : tail ≠ [] := by
    intro hc
    rw [hc] at htlen
    simp at htlen
    omega
  obtain ⟨sl, tl, hpl⟩ : ∃ a b, tail.getLast htne = (a, b) :=
    ⟨(tail.getLast htne).1, (tail.getLast htne).2, rfl⟩
  have htail : tail.dropLast ++ [(sl, tl)] = tail := by
    rw [← hpl]
    exact List.dropLast_append_getLast htne
  have hfl : tail.dropLast.length = N - 1 := by
    rw [List.length_dropLast, htlen]
  have hps : p0 :: tail = (p0 :: tail.dropLast) ++ [(sl, tl)] := by
    rw [List.cons_append, htail]
  have hndps : (p0.1 :: tail.map Prod.fst).Nodup := by simpa using hnd
  have hnd0 : p0.1 ∉ tail.map Prod.fst := (List.nodup_cons.mp hndps).1
  have hndtail : (tail.map Prod.fst).Nodup := (List.nodup_cons.mp hndps).2
  have hpairs : (p0 :: tail).Pairwise
      (fun a b : String × Int => a.2 < b.2) := List.pairwise_map.mp hmono
  have hlt0 : ∀ b ∈ tail, p0.2 < b.2 := (List.pairwise_cons.mp hpairs).1
  have hsubDL : tail.dropLast.Sublist tail := List.dropLast_sublist tail
  have hndDL : (tail.dropLast.map Prod.fst).Nodup :=
    hndtail.sublist (hsubDL.map Prod.fst)
  have h0DL : p0.1 ∉ tail.dropLast.map Prod.fst := by
    intro hc
    apply hnd0
    obtain ⟨x, hx, hx2⟩ := List.mem_map.mp hc
    exact hx2 ▸ List.mem_map_of_mem Prod.fst (List.dropLast_subset tail hx)
  have hfrontnd : ((p0 :: tail.dropLast).map Prod.fst).Nodup := by
    simp only [List.map_cons, List.nodup_cons]
    exact ⟨h0DL, hndDL⟩
  have hcount0 : (zcard (getZSet st.indexes (UserSessKey u.id)) : Int)
      + (p0 :: tail.dropLast).length ≤ cfg.maxSessionsPerUser := by
    rw [hempty, hcfg]
    simp only [zcard, List.length_nil, List.length_cons, hfl]
    push_cast
    omega
  set stA := runLogins cfg verify username password meta st
    (p0 :: tail.dropLast) with hstA
  obtain ⟨hidxA, husersA, hbannedA⟩ :=
    runLogins_below_cap cfg verify username password meta u hdb hv
      (p0 :: tail.dropLast) st hgu hmark hcount0
      (by intro q hq; rw [hempty]; simp)
      hfrontnd
  rw [hempty] at hidxA
  simp only [List.nil_append] at hidxA
  have hsplit : runLogins cfg verify username password meta st (p0 :: tail)
      = (Login stA cfg verify username password meta tl sl true true).1 := by
    rw [hps, runLogins_append, ← hstA, runLogins_cons]
    rfl
  have hguA : GetUserByUsername stA.users username = some u := by
    rw [husersA]; exact hgu
  have hmarkA : BannedUserKey u.id ∉ stA.banned := by
    rw [hbannedA]; exact hmark
  have hcap : cfg.maxSessionsPerUser
      ≤ (zcard (getZSet stA.indexes (UserSessKey u.id)) : Int) := by
    rw [hidxA, hcfg]
    simp only [zcard, List.length_cons, hfl]
    push_cast
    omega
  have hpos : 0 < cfg.maxSessionsPerUser := by
    rw [hcfg]; exact_mod_cast hN
  have hz : zhead (getZSet stA.indexes (UserSessKey u.id)) = some p0.1 := by
    rw [hidxA]
    exact zhead_cons_of_gt p0 _
      (fun p hp => hlt0 p (List.dropLast_subset tail hp))
  have hevA := evictOldest_of_at_cap stA cfg u.id tl p0.1 hpos hcap hz
  have hidxLast := Login_indexes_success stA cfg verify username password
    meta tl sl u hguA hdb hmarkA hv
  have hzremEq : zrem p0.1 (p0 :: tail.dropLast) = tail.dropLast := by
    have h1 : zrem p0.1 (p0 :: tail.dropLast) = zrem p0.1 tail.dropLast := by
      unfold zrem
      rw [List.filter_cons]
      simp
    rw [h1, zrem_of_fresh p0.1 tail.dropLast h0DL]
  have hslfresh : sl ∉ tail.dropLast.map Prod.fst := by
    have hmapsplit : tail.map Prod.fst
        = tail.dropLast.map Prod.fst ++ [sl] := by
      conv_lhs => rw [← htail]
      simp
    intro hc
    have hd := List.nodup_append.mp (hmapsplit ▸ hndtail)
    exact hd.2.2 hc (List.mem_singleton_self sl)
  have hfinal : getZSet (Login stA cfg verify username password meta tl sl
        true true).1.indexes (UserSessKey u.id) = tail := by
    rw [hidxLast, hevA]
    simp only [getZSet_aset_self]
    rw [hidxA, hzremEq, zadd_of_fresh sl tl _ hslfresh, htail]
  rw [hsplit, hfinal]
  refine ⟨rfl, htlen, ?_⟩
  simpa using hnd0

/-- C2 witness: with a cap of one session, two logins of carol (ids a then
b at times 0 then 1) leave only the second session in the index. -/
theorem c2_witness :
    getZSet (runLogins ⟨3600, 1⟩ (fun h p => h == p) "carol" "hC"
        ⟨"ip", "ua"⟩ stFree [("a", 0), ("b", 1)]).indexes (UserSessKey 3)
      = [(("a" : String), (0 : Int)), ("b", 1)].tail ∧
    (getZSet (runLogins ⟨3600, 1⟩ (fun h p => h == p) "carol" "hC"
        ⟨"ip", "ua"⟩ stFree [("a", 0), ("b", 1)]).indexes
        (UserSessKey 3)).length = 1 ∧
    (("a" : String), (0 : Int)).1 ∉
      (getZSet (runLogins ⟨3600, 1⟩ (fun h p => h == p) "carol" "hC"
        ⟨"ip", "ua"⟩ stFree [("a", 0), ("b", 1)]).indexes
        (UserSessKey 3)).map Prod.fst :=
  c2_cap_evicts_oldest 1 (by decide) ⟨3600, 1⟩ (by decide) stFree
    { id := 3, username := "carol", passwordHash := "hC", isBanned := false }
    (fun h p => h == p) "carol" "hC" ⟨"ip", "ua"⟩ (by decide) (by decide)
    (by decide) (by decide) (by decide) [("a", 0), ("b", 1)] ("a", 0)
    (by decide) (by decide) (by decide) (by decide)

/-- C4 witness: the audit-job guarantee applied at a concrete successful
login of carol, with the success-outcome hypotheses discharged: exactly one
job is enqueued, flagged successful with reason ok, and the call returns
carol's new session. -/
theorem c4_witness :
    ∃ p : LoginAuditPayload,
      (Login stFree ⟨3600, 2⟩ (fun h p => h == p) "carol" "hC" ⟨"ip", "ua"⟩
          5 "sidC" true true).1.auditJobs = stFree.auditJobs ++ [p] ∧
      p.username = "carol" ∧
      p.success = true ∧ p.reason = "ok" ∧
      (Login stFree ⟨3600, 2⟩ (fun h p => h == p) "carol" "hC" ⟨"ip", "ua"⟩
          5 "sidC" true true).2
        = .ok { id := 3, username := "carol", passwordHash := "hC",
                isBanned := false } "sidC" 3605 := by
  obtain ⟨p, h1, h2, _, h4⟩ :=
    c4_audit_every_outcome stFree ⟨3600, 2⟩ (fun h p => h == p) "carol"
      "hC" ⟨"ip", "ua"⟩ 5 "sidC"
  obtain ⟨huid, hsub1, hsub2, hsub3, hsub4⟩ :=
    h4 { id := 3, username := "carol", passwordHash := "hC",
         isBanned := false } (by decide)
  obtain ⟨hs, hr, hok⟩ := hsub4 (by decide) (by decide) (by decide)
  exact ⟨p, h1, h2, hs, hr, by rw [hok]; decide⟩

end SessionService
